import Mathlib

/-!
Shallow embedding of the quiz-session replication core of
`src/pages/QuizPage.tsx` (testownik_frontend).

The React component keeps its session state in `useState`/`useRef` cells;
here that state is gathered into the `SessionState` structure and each
handler becomes a pure function from (inputs, state) to (state, outbound
sends).  Randomness (`Math.random()`) is passed in as an explicit `rand`
parameter / `shuffle` function; JavaScript numbers are modelled as `Int`
(list indices as `Int`, matching the `-1` sentinel used by `checkAnswer`).
Peer connections are modelled as values with an identity field `connId`
standing for JavaScript reference identity (`conn !== exceptConn`).
-/

namespace Testownik

/-- An answer of a question (`components/quiz/types.ts`): its text and
whether it is flagged correct. -/
structure Answer where
  answer : String
  correct : Bool
  deriving DecidableEq

/-- A quiz question: id, text, multiple-choice flag and its answers. -/
structure Question where
  id : Int
  question : String
  multiple : Bool
  answers : List Answer
  deriving DecidableEq

/-- One entry of the reoccurrence schedule: a question id and how many
more times it must be answered. -/
structure Reoccurrence where
  id : Int
  reoccurrences : Int
  deriving DecidableEq

/-- A quiz as fetched from the server: the fields the session core reads. -/
structure Quiz where
  id : Int
  title : String
  version : Int
  questions : List Question
  deriving DecidableEq

/-- `UserSettings` from `QuizPage.tsx` (lines 31-35). -/
structure UserSettings where
  sync_progress : Bool
  initial_reoccurrences : Int
  wrong_answer_reoccurrences : Int
  deriving DecidableEq

/-- The replicated session state of `QuizPage`: the `useState` cells
`currentQuestion`, `selectedAnswers`, `questionChecked`,
`correctAnswersCount`, `wrongAnswersCount`, `reoccurrences`,
`isQuizFinished`, `studyTime` and the ref `startTimeRef`. -/
structure SessionState where
  currentQuestion : Option Question
  selectedAnswers : List Int
  questionChecked : Bool
  correctAnswersCount : Int
  wrongAnswersCount : Int
  reoccurrences : List Reoccurrence
  isQuizFinished : Bool
  startTime : Int
  studyTime : Int
  deriving DecidableEq

/-- A PeerJS `DataConnection` as the code observes it: remote peer id and
open flag.  `connId` models JavaScript object identity, which
`sendToAllPeersExcept` compares with `!==`. -/
structure DataConnection where
  connId : Nat
  peer : String
  isOpen : Bool
  deriving DecidableEq

/-- The tagged message union of `QuizPage.tsx` (lines 590-621). -/
inductive PeerMessage where
  | initial_sync (startTime : Int) (correctAnswersCount : Int)
      (wrongAnswersCount : Int) (reoccurrences : List Reoccurrence)
  | question_update (question : Question) (selectedAnswers : List Int)
  | answer_checked
  | ping
  | pong
  deriving DecidableEq

/-- The `Progress` record persisted by `saveProgress` (lines 37-44). -/
structure Progress where
  current_question : Int
  correct_answers_count : Int
  wrong_answers_count : Int
  study_time : Int
  reoccurrences : List Reoccurrence
  deriving DecidableEq

/-- What one call to `saveProgress` writes: the localStorage write and the
server POST, each present or absent. -/
structure SaveEffect where
  localWrite : Option Progress
  serverPost : Option Progress
  deriving DecidableEq

/-- `checkAnswer` lines 391-393: `answers.map((ans, idx) => ans.correct ?
idx : -1).filter((idx) => idx !== -1)`. -/
def correctIndices (q : Question) : List Int :=
  (q.answers.enum.map (fun p => if p.2.correct then (p.1 : Int) else -1)).filter
    (fun i => i != -1)

/-- `checkAnswer` of `QuizPage.tsx` lines 384-431 (state part; the
`sendToAllPeers` broadcast on a local check is modelled at the call
sites).  Guard: already-checked or no current question is a no-op.  The
question is judged correct when the correct-index list and the selected
list have equal length and every correct index is selected. -/
def checkAnswer (settings : UserSettings) (s : SessionState) : SessionState :=
  if s.questionChecked then s
  else
    match s.currentQuestion with
    | none => s
    | some q =>
      let ci := correctIndices q
      let isCorrect :=
        ci.length == s.selectedAnswers.length &&
          ci.all (fun c => s.selectedAnswers.contains c)
      if isCorrect then
        { s with
          correctAnswersCount := s.correctAnswersCount + 1,
          reoccurrences := s.reoccurrences.map (fun r =>
            if r.id == q.id then
              { r with reoccurrences := max (r.reoccurrences - 1) 0 }
            else r),
          questionChecked := true }
      else
        { s with
          wrongAnswersCount := s.wrongAnswersCount + 1,
          reoccurrences := s.reoccurrences.map (fun r =>
            if r.id == q.id then
              { r with reoccurrences :=
                  r.reoccurrences + settings.wrong_answer_reoccurrences }
            else r),
          questionChecked := true }

/-- `pickRandomQuestion` of `QuizPage.tsx` lines 358-381.
`Math.floor(Math.random() * available.length)` is modelled by
`rand % available.length`; the `[...answers].sort(() => Math.random() -
0.5)` shuffle by the explicit `shuffle` parameter. -/
def pickRandomQuestion (quizData : Quiz) (recurrencesData : List Reoccurrence)
    (rand : Nat) (shuffle : List Answer → List Answer)
    (s : SessionState) : SessionState :=
  let available := recurrencesData.filter (fun r => decide (r.reoccurrences > 0))
  if h : available.length = 0 then
    { s with isQuizFinished := true, currentQuestion := none }
  else
    let randId :=
      (available.get ⟨rand % available.length,
        Nat.mod_lt rand (Nat.pos_of_ne_zero h)⟩).id
    match quizData.questions.find? (fun q => q.id == randId) with
    | none => { s with currentQuestion := none }
    | some questionObj =>
      { s with
        currentQuestion :=
          some { questionObj with answers := shuffle questionObj.answers },
        isQuizFinished := false }

/-- The fresh reoccurrence list built on first load (lines 138-141) and in
`resetProgress` (lines 296-299): one entry per question, all set to
`initial_reoccurrences`. -/
def freshReoccurrences (quizData : Quiz) (initial : Int) : List Reoccurrence :=
  quizData.questions.map (fun q => { id := q.id, reoccurrences := initial })

/-- `resetProgress` of `QuizPage.tsx` lines 285-308 (state part; the
localStorage/server deletions are external effects). -/
def resetProgress (quiz : Quiz) (settings : UserSettings) (rand : Nat)
    (shuffle : List Answer → List Answer) (s : SessionState) : SessionState :=
  let newReoccurrences := freshReoccurrences quiz settings.initial_reoccurrences
  pickRandomQuestion quiz newReoccurrences rand shuffle
    { s with
      reoccurrences := newReoccurrences,
      correctAnswersCount := 0,
      wrongAnswersCount := 0,
      isQuizFinished := false,
      studyTime := 0 }

/-- `saveProgress` of `QuizPage.tsx` lines 246-283, as the pair of writes
it performs: always the localStorage write, and the server POST only when
`sync_progress && (isContinuityHost || peerConnections.length === 0)`;
nothing at all when there is no current question or the quiz is
finished. -/
def saveProgress (settings : UserSettings) (isContinuityHost : Bool)
    (peerConnections : List DataConnection) (s : SessionState) : SaveEffect :=
  match s.currentQuestion with
  | none => { localWrite := none, serverPost := none }
  | some currentQuestion =>
    if s.isQuizFinished then { localWrite := none, serverPost := none }
    else
      let progress : Progress :=
        { current_question := currentQuestion.id,
          correct_answers_count := s.correctAnswersCount,
          wrong_answers_count := s.wrongAnswersCount,
          study_time := s.studyTime,
          reoccurrences := s.reoccurrences }
      { localWrite := some progress,
        serverPost :=
          if settings.sync_progress &&
              (isContinuityHost || peerConnections.length == 0) then
            some progress
          else none }

/-- `sendToPeer` lines 875-879: sends only on an open connection.  A send
is recorded as the (target, message) pair. -/
def sendToPeer (conn : DataConnection) (data : PeerMessage) :
    List (DataConnection × PeerMessage) :=
  if conn.isOpen then [(conn, data)] else []

/-- `sendToAllPeers` lines 881-885. -/
def sendToAllPeers (peerConnections : List DataConnection)
    (data : PeerMessage) : List (DataConnection × PeerMessage) :=
  peerConnections.flatMap (fun conn => sendToPeer conn data)

/-- `sendToAllPeersExcept` lines 887-896: skip the connection that is
(reference-)equal to `exceptConn`. -/
def sendToAllPeersExcept (peerConnections : List DataConnection)
    (exceptConn : DataConnection) (data : PeerMessage) :
    List (DataConnection × PeerMessage) :=
  peerConnections.flatMap (fun conn =>
    if conn = exceptConn then [] else sendToPeer conn data)

/-- `handlePeerDataAsHost` lines 759-786: apply the message to the host
state and relay `question_update` / `answer_checked` to every other
connection; answer a `ping` with a `pong`; drop anything else. -/
def handlePeerDataAsHost (settings : UserSettings)
    (peerConnections : List DataConnection) (conn : DataConnection)
    (data : PeerMessage) (s : SessionState) :
    SessionState × List (DataConnection × PeerMessage) :=
  match data with
  | .question_update question selAns =>
    ({ s with
        currentQuestion := some question,
        questionChecked := false,
        selectedAnswers := selAns },
     sendToAllPeersExcept peerConnections conn
       (.question_update question selAns))
  | .answer_checked =>
    (checkAnswer settings s,
     sendToAllPeersExcept peerConnections conn .answer_checked)
  | .ping => (s, sendToPeer conn .pong)
  | _ => (s, [])

/-- `handlePeerDataAsClient` lines 822-848: `initial_sync` replaces the
start-time anchor, both counters and the reoccurrence list;
`question_update` replaces the current question and selection and clears
the checked flag; `answer_checked` runs the shared `checkAnswer`;
`ping` is answered with a `pong` on `peerConnections[0]`; anything else
is dropped. -/
def handlePeerDataAsClient (settings : UserSettings)
    (peerConnections : List DataConnection) (data : PeerMessage)
    (s : SessionState) : SessionState × List (DataConnection × PeerMessage) :=
  match data with
  | .initial_sync st c w r =>
    ({ s with
        startTime := st,
        correctAnswersCount := c,
        wrongAnswersCount := w,
        reoccurrences := r }, [])
  | .question_update question selAns =>
    ({ s with
        currentQuestion := some question,
        questionChecked := false,
        selectedAnswers := selAns }, [])
  | .answer_checked => (checkAnswer settings s, [])
  | .ping =>
    (s, match peerConnections with
        | [] => []
        | c0 :: _ => sendToPeer c0 .pong)
  | _ => (s, [])

/-- `initialSyncToPeer` lines 898-915: the `initial_sync` snapshot message
immediately followed by the `question_update` for the active question. -/
def initialSyncToPeer (conn : DataConnection) (currentQuestion : Question)
    (reocc : List Reoccurrence) (startTime : Int)
    (wrongAnswersCount : Int) (correctAnswersCount : Int)
    (selAns : List Int) : List (DataConnection × PeerMessage) :=
  sendToPeer conn
    (.initial_sync startTime correctAnswersCount wrongAnswersCount reocc) ++
  sendToPeer conn (.question_update currentQuestion selAns)

/-- A client applying a sequence of inbound messages in order
(`conn.on("data", ...)` dispatching to `handlePeerDataAsClient`). -/
def applyClientMessages (settings : UserSettings)
    (peerConnections : List DataConnection) (msgs : List PeerMessage)
    (s : SessionState) : SessionState :=
  msgs.foldl (fun st m => (handlePeerDataAsClient settings peerConnections m st).1) s

/-- The local peer object as `handlePeerClose` inspects it
(`peerRef.current` with its `destroyed` flag). -/
structure PeerRef where
  destroyed : Bool
  deriving DecidableEq

/-- The follow-up a connection-close handler schedules: either one
reconnection attempt to a remote id with a fallback action on failure, or
re-running `initiateContinuity` directly. -/
inductive CloseAction where
  | reconnectOnceThen (remoteId : String) (onFail : CloseAction)
  | initiateContinuity
  deriving DecidableEq

/-- The `setPeerConnections` filter of `handlePeerClose` line 790:
`prev.filter((c) => c.open && c.peer !== conn.peer)`. -/
def removeFromActiveSet (peerConnections : List DataConnection)
    (conn : DataConnection) : List DataConnection :=
  peerConnections.filter (fun c => c.isOpen && c.peer != conn.peer)

/-- `handlePeerClose` lines 788-807: remove the closed connection from the
active set; a non-host with a live (non-destroyed) peer attempts one
`connectToPeer(peerRef.current, conn.peer)` whose `catch` runs
`initiateContinuity()`; otherwise `initiateContinuity()` runs directly. -/
def handlePeerClose (isContinuityHost : Bool) (peerRef : Option PeerRef)
    (peerConnections : List DataConnection) (conn : DataConnection) :
    List DataConnection × CloseAction :=
  let newConnections := removeFromActiveSet peerConnections conn
  if !isContinuityHost &&
      (match peerRef with | some p => !p.destroyed | none => false) then
    (newConnections, .reconnectOnceThen conn.peer .initiateContinuity)
  else
    (newConnections, .initiateContinuity)

/-- Per-connection probe state for the liveness monitor (`pingPeers`
lines 850-866 together with the close path of `handlePeerClose`): the
probed connection, whether a ping timeout is armed, how many times the
close path removed the connection, and the active connection set. -/
structure ProbeState where
  conn : DataConnection
  timerArmed : Bool
  removedCount : Nat
  activeConns : List DataConnection
  deriving DecidableEq

/-- Events observable on one connection's probe timeline. -/
inductive PingEvent where
  | pingTick
  | pongReceived
  | timeoutFired
  deriving DecidableEq

/-- One event of the liveness monitor, as `pingPeers` implements it:
a ping tick sends a ping and arms the timeout on an open connection
(`if (conn.open)`); a pong clears the armed timeout (`clearTimeout`); an
elapsed timeout, if still armed, force-closes the connection
(`conn.close()`), whose close event runs the `handlePeerClose` removal
filter on the active set exactly once. -/
def probeStep (s : ProbeState) : PingEvent → ProbeState
  | .pingTick => if s.conn.isOpen then { s with timerArmed := true } else s
  | .pongReceived => { s with timerArmed := false }
  | .timeoutFired =>
    if s.timerArmed then
      { conn := { s.conn with isOpen := false },
        timerArmed := false,
        removedCount := s.removedCount + 1,
        activeConns := removeFromActiveSet s.activeConns s.conn }
    else s

/-- Run a probe timeline. -/
def probeRun (s : ProbeState) (events : List PingEvent) : ProbeState :=
  events.foldl probeStep s

/-! ## Theorems -/

lemma checkAnswer_of_checked (settings : UserSettings) (s : SessionState)
    (h : s.questionChecked = true) : checkAnswer settings s = s := by
  simp [checkAnswer, h]

lemma checkAnswer_questionChecked_true (settings : UserSettings)
    (s : SessionState) (q : Question) (hq : s.currentQuestion = some q) :
    (checkAnswer settings s).questionChecked = true := by
  by_cases h : s.questionChecked
  · simp [checkAnswer, h]
  · simp only [checkAnswer, Bool.not_eq_true] at h ⊢
    rw [h, hq]
    simp only [Bool.false_eq_true, if_false]
    split <;> rfl

/-- C6: applying `checkAnswer` twice in a row yields the same state as
applying it once — once the `questionChecked` flag is set, any further
`checkAnswer` call, including one triggered by a remote `answer_checked`
message, changes nothing. -/
theorem checkAnswer_idempotent (settings : UserSettings)
    (peerConnections : List DataConnection) (s : SessionState) :
    checkAnswer settings (checkAnswer settings s) = checkAnswer settings s ∧
    (handlePeerDataAsClient settings peerConnections PeerMessage.answer_checked
        (checkAnswer settings s)).1 = checkAnswer settings s := by
  have key : checkAnswer settings (checkAnswer settings s) = checkAnswer settings s := by
    by_cases h : s.questionChecked
    · rw [checkAnswer_of_checked settings s h, checkAnswer_of_checked settings s h]
    · cases hq : s.currentQuestion with
      | none =>
        have hs : checkAnswer settings s = s := by
          simp [checkAnswer, hq]
        rw [hs, hs]
      | some q =>
        exact checkAnswer_of_checked settings _
          (checkAnswer_questionChecked_true settings s q hq)
  exact ⟨key, by simpa [handlePeerDataAsClient] using key⟩

/-- C7: a device in the Client role (not continuity host) with a live,
non-destroyed peer object reacts to its connection closing by scheduling
exactly one reconnection attempt to the same remote identifier, whose
failure fallback is re-running `initiateContinuity`. -/
theorem handlePeerClose_client_reconnects_once (pr : PeerRef)
    (peerConnections : List DataConnection) (conn : DataConnection)
    (hpr : pr.destroyed = false) :
    (handlePeerClose false (some pr) peerConnections conn).2 =
      CloseAction.reconnectOnceThen conn.peer CloseAction.initiateContinuity := by
  simp [handlePeerClose, hpr]

theorem handlePeerClose_client_reconnects_once_witness :
    (handlePeerClose false (some ⟨false⟩) [] ⟨0, "host", true⟩).2 =
      CloseAction.reconnectOnceThen "host" CloseAction.initiateContinuity :=
  handlePeerClose_client_reconnects_once ⟨false⟩ [] ⟨0, "host", true⟩ rfl

/-- C5: `pickRandomQuestion` only ever sets as current a question some
entry of the reoccurrence list credits with a strictly positive count,
and when no entry is positive it marks the quiz finished and clears the
current question instead. -/
theorem pickRandomQuestion_only_eligible (quizData : Quiz)
    (R : List Reoccurrence) (rand : Nat)
    (shuffle : List Answer → List Answer) (s : SessionState) :
    (∀ q, (pickRandomQuestion quizData R rand shuffle s).currentQuestion = some q →
      ∃ r ∈ R, r.id = q.id ∧ 0 < r.reoccurrences) ∧
    ((∀ r ∈ R, r.reoccurrences ≤ 0) →
      (pickRandomQuestion quizData R rand shuffle s).isQuizFinished = true ∧
      (pickRandomQuestion quizData R rand shuffle s).currentQuestion = none) := by
  constructor
  · intro q hq
    by_cases h0 : (R.filter (fun r => decide (r.reoccurrences > 0))).length = 0
    · simp [pickRandomQuestion, h0] at hq
    · simp only [pickRandomQuestion, h0, dite_false, dif_neg, not_false_iff] at hq
      split at hq
      · simp at hq
      · rename_i questionObj heq
        simp only [Option.some.injEq] at hq
        have hmem : (R.filter (fun r => decide (r.reoccurrences > 0))).get
            ⟨rand % (R.filter (fun r => decide (r.reoccurrences > 0))).length,
              Nat.mod_lt rand (Nat.pos_of_ne_zero h0)⟩ ∈
            R.filter (fun r => decide (r.reoccurrences > 0)) :=
          List.get_mem _ _ _
        refine ⟨(R.filter (fun r => decide (r.reoccurrences > 0))).get
          ⟨rand % (R.filter (fun r => decide (r.reoccurrences > 0))).length,
            Nat.mod_lt rand (Nat.pos_of_ne_zero h0)⟩, ?_, ?_, ?_⟩
        · exact List.mem_of_mem_filter hmem
        · have hpred := List.find?_some heq
          rw [← hq]
          exact (beq_iff_eq.mp hpred).symm
        · have hp := List.of_mem_filter hmem
          simpa using hp
  · intro hall
    have hnil : R.filter (fun r => decide (r.reoccurrences > 0)) = [] := by
      rw [List.filter_eq_nil_iff]
      intro r hr
      simpa using hall r hr
    constructor <;> simp [pickRandomQuestion, hnil]

theorem pickRandomQuestion_only_eligible_witness :
    (pickRandomQuestion ⟨1, "t", 1, [⟨7, "q", false, [⟨"a", true⟩]⟩]⟩
        [⟨7, 0⟩] 0 id
        ⟨none, [], false, 0, 0, [⟨7, 0⟩], false, 0, 0⟩).isQuizFinished = true ∧
    (pickRandomQuestion ⟨1, "t", 1, [⟨7, "q", false, [⟨"a", true⟩]⟩]⟩
        [⟨7, 0⟩] 0 id
        ⟨none, [], false, 0, 0, [⟨7, 0⟩], false, 0, 0⟩).currentQuestion = none :=
  (pickRandomQuestion_only_eligible ⟨1, "t", 1, [⟨7, "q", false, [⟨"a", true⟩]⟩]⟩
      [⟨7, 0⟩] 0 id ⟨none, [], false, 0, 0, [⟨7, 0⟩], false, 0, 0⟩).2
    (by decide)

/-- C2: with a non-null current question and an open connection, the host
sends exactly the `initial_sync` snapshot immediately followed by the
`question_update` for the active question, and a client applying those
two messages in order ends up with exactly the counters, reoccurrence
list, current question, start-time anchor and selection the host held. -/
theorem initialSync_roundtrip (settings : UserSettings)
    (peerConnections : List DataConnection) (conn : DataConnection)
    (h : SessionState) (q : Question) (c0 : SessionState)
    (hq : h.currentQuestion = some q) (hopen : conn.isOpen = true) :
    initialSyncToPeer conn q h.reoccurrences h.startTime h.wrongAnswersCount
        h.correctAnswersCount h.selectedAnswers =
      [(conn, PeerMessage.initial_sync h.startTime h.correctAnswersCount
          h.wrongAnswersCount h.reoccurrences),
       (conn, PeerMessage.question_update q h.selectedAnswers)] ∧
    (applyClientMessages settings peerConnections
        [PeerMessage.initial_sync h.startTime h.correctAnswersCount
            h.wrongAnswersCount h.reoccurrences,
         PeerMessage.question_update q h.selectedAnswers] c0).correctAnswersCount =
      h.correctAnswersCount ∧
    (applyClientMessages settings peerConnections
        [PeerMessage.initial_sync h.startTime h.correctAnswersCount
            h.wrongAnswersCount h.reoccurrences,
         PeerMessage.question_update q h.selectedAnswers] c0).wrongAnswersCount =
      h.wrongAnswersCount ∧
    (applyClientMessages settings peerConnections
        [PeerMessage.initial_sync h.startTime h.correctAnswersCount
            h.wrongAnswersCount h.reoccurrences,
         PeerMessage.question_update q h.selectedAnswers] c0).reoccurrences =
      h.reoccurrences ∧
    (applyClientMessages settings peerConnections
        [PeerMessage.initial_sync h.startTime h.correctAnswersCount
            h.wrongAnswersCount h.reoccurrences,
         PeerMessage.question_update q h.selectedAnswers] c0).currentQuestion =
      h.currentQuestion ∧
    (applyClientMessages settings peerConnections
        [PeerMessage.initial_sync h.startTime h.correctAnswersCount
            h.wrongAnswersCount h.reoccurrences,
         PeerMessage.question_update q h.selectedAnswers] c0).startTime =
      h.startTime ∧
    (applyClientMessages settings peerConnections
        [PeerMessage.initial_sync h.startTime h.correctAnswersCount
            h.wrongAnswersCount h.reoccurrences,
         PeerMessage.question_update q h.selectedAnswers] c0).selectedAnswers =
      h.selectedAnswers := by
  refine ⟨?_, ?_, ?_, ?_, ?_, ?_, ?_⟩ <;>
    simp [initialSyncToPeer, sendToPeer, hopen, applyClientMessages,
      handlePeerDataAsClient, hq]

theorem initialSync_roundtrip_witness :
    (applyClientMessages ⟨true, 1, 1⟩ [] [PeerMessage.initial_sync 50 3 4 [⟨7, 2⟩],
        PeerMessage.question_update ⟨7, "q", false, [⟨"a", true⟩]⟩ [0]]
      ⟨none, [], false, 0, 0, [], false, 0, 0⟩).correctAnswersCount = 3 ∧
    (applyClientMessages ⟨true, 1, 1⟩ [] [PeerMessage.initial_sync 50 3 4 [⟨7, 2⟩],
        PeerMessage.question_update ⟨7, "q", false, [⟨"a", true⟩]⟩ [0]]
      ⟨none, [], false, 0, 0, [], false, 0, 0⟩).currentQuestion =
      some ⟨7, "q", false, [⟨"a", true⟩]⟩ := by
  have hmain := initialSync_roundtrip ⟨true, 1, 1⟩ [] ⟨0, "client", true⟩
    ⟨some ⟨7, "q", false, [⟨"a", true⟩]⟩, [0], false, 3, 4, [⟨7, 2⟩], false, 50, 9⟩
    ⟨7, "q", false, [⟨"a", true⟩]⟩
    ⟨none, [], false, 0, 0, [], false, 0, 0⟩ rfl rfl
  exact ⟨hmain.2.1, hmain.2.2.2.2.1⟩

/-- C3 counterexample: the client handler has no per-connection guard
against a repeated `initial_sync`; at this concrete input a second
`initial_sync` arriving after a first one changes the client's correct
counter, so it is not ignored as the claim states. -/
theorem second_initial_sync_changes_state :
    ((handlePeerDataAsClient ⟨true, 1, 1⟩ []
        (PeerMessage.initial_sync 100 7 8 [⟨1, 9⟩])
        (handlePeerDataAsClient ⟨true, 1, 1⟩ []
            (PeerMessage.initial_sync 0 1 2 [⟨1, 3⟩])
            ⟨none, [], false, 0, 0, [], false, 0, 0⟩).1).1).correctAnswersCount ≠
      ((handlePeerDataAsClient ⟨true, 1, 1⟩ []
          (PeerMessage.initial_sync 0 1 2 [⟨1, 3⟩])
          ⟨none, [], false, 0, 0, [], false, 0, 0⟩).1).correctAnswersCount := by
  decide

/-- C3 amended: a second `initial_sync` on the same connection is not
treated as a protocol error — the client applies it exactly like the
first, replacing the counters, reoccurrence list and start-time anchor
with the new payload and leaving every other field unchanged. -/
theorem second_initial_sync_applied (settings : UserSettings)
    (peerConnections : List DataConnection) (c0 : SessionState)
    (st1 cv1 wv1 : Int) (r1 : List Reoccurrence)
    (st2 cv2 wv2 : Int) (r2 : List Reoccurrence) :
    (handlePeerDataAsClient settings peerConnections
        (PeerMessage.initial_sync st2 cv2 wv2 r2)
        (handlePeerDataAsClient settings peerConnections
            (PeerMessage.initial_sync st1 cv1 wv1 r1) c0).1).1 =
      { c0 with
        startTime := st2,
        correctAnswersCount := cv2,
        wrongAnswersCount := wv2,
        reoccurrences := r2 } := by
  simp [handlePeerDataAsClient]

/-- Message kinds the host relays (the claim's quantifier: a
`question_update` or an `answer_checked`). -/
def isRelayable : PeerMessage → Bool
  | .question_update _ _ => true
  | .answer_checked => true
  | _ => false

lemma sendToAllPeersExcept_all_open (peerConnections : List DataConnection)
    (exceptConn : DataConnection) (data : PeerMessage)
    (hopen : ∀ c ∈ peerConnections, c.isOpen = true) :
    sendToAllPeersExcept peerConnections exceptConn data =
      (peerConnections.filter (fun c => c != exceptConn)).map
        (fun c => (c, data)) := by
  induction peerConnections with
  | nil => rfl
  | cons c cs ih =>
    have hc := hopen c (List.mem_cons_self _ _)
    have hcs : ∀ x ∈ cs, x.isOpen = true := fun x hx =>
      hopen x (List.mem_cons_of_mem _ hx)
    have htail := ih hcs
    by_cases h : c = exceptConn
    · have hbne : (c != exceptConn) = false := by
        simp [bne_eq_false_iff_eq, h]
      calc sendToAllPeersExcept (c :: cs) exceptConn data
          = sendToAllPeersExcept cs exceptConn data := by
            simp [sendToAllPeersExcept, h]
        _ = (List.filter (fun x => x != exceptConn) (c :: cs)).map
              (fun x => (x, data)) := by
            rw [htail]
            simp [List.filter_cons, hbne]
    · have hbne : (c != exceptConn) = true := bne_iff_ne.mpr h
      calc sendToAllPeersExcept (c :: cs) exceptConn data
          = (c, data) :: sendToAllPeersExcept cs exceptConn data := by
            simp [sendToAllPeersExcept, h, sendToPeer, hc]
        _ = (List.filter (fun x => x != exceptConn) (c :: cs)).map
              (fun x => (x, data)) := by
            rw [htail]
            simp [List.filter_cons, hbne]

/-- C4: for a `question_update` or `answer_checked` received from
connection `A`, a host whose connections are all open relays exactly
that message to every connection except `A` and never back to `A`; a
device in the client role relays nothing on receiving such a message. -/
theorem host_relays_to_all_except_sender (settings : UserSettings)
    (peerConnections : List DataConnection) (A : DataConnection)
    (m : PeerMessage) (s c : SessionState)
    (hopen : ∀ cn ∈ peerConnections, cn.isOpen = true)
    (hm : isRelayable m = true) :
    (handlePeerDataAsHost settings peerConnections A m s).2 =
      (peerConnections.filter (fun cn => cn != A)).map (fun cn => (cn, m)) ∧
    (∀ p ∈ (handlePeerDataAsHost settings peerConnections A m s).2, p.1 ≠ A) ∧
    (handlePeerDataAsClient settings peerConnections m c).2 = [] := by
  have hrelay : (handlePeerDataAsHost settings peerConnections A m s).2 =
      (peerConnections.filter (fun cn => cn != A)).map (fun cn => (cn, m)) := by
    cases m with
    | question_update question selAns =>
      simpa [handlePeerDataAsHost] using
        sendToAllPeersExcept_all_open peerConnections A _ hopen
    | answer_checked =>
      simpa [handlePeerDataAsHost] using
        sendToAllPeersExcept_all_open peerConnections A _ hopen
    | initial_sync st cv wv r => simp [isRelayable] at hm
    | ping => simp [isRelayable] at hm
    | pong => simp [isRelayable] at hm
  refine ⟨hrelay, ?_, ?_⟩
  · intro p hp
    rw [hrelay] at hp
    rw [List.mem_map] at hp
    obtain ⟨cn, hcn, rfl⟩ := hp
    have hb : (cn != A) = true := (List.mem_filter.mp hcn).2
    exact bne_iff_ne.mp hb
  · cases m with
    | question_update question selAns => simp [handlePeerDataAsClient]
    | answer_checked => simp [handlePeerDataAsClient]
    | initial_sync st cv wv r => simp [isRelayable] at hm
    | ping => simp [isRelayable] at hm
    | pong => simp [isRelayable] at hm

theorem host_relays_to_all_except_sender_witness :
    (handlePeerDataAsHost ⟨true, 1, 1⟩
        [⟨1, "b", true⟩, ⟨2, "c", true⟩, ⟨0, "a", true⟩] ⟨0, "a", true⟩
        PeerMessage.answer_checked
        ⟨none, [], false, 0, 0, [], false, 0, 0⟩).2 =
      [(⟨1, "b", true⟩, PeerMessage.answer_checked),
       (⟨2, "c", true⟩, PeerMessage.answer_checked)] := by
  have hmain := host_relays_to_all_except_sender ⟨true, 1, 1⟩
    [⟨1, "b", true⟩, ⟨2, "c", true⟩, ⟨0, "a", true⟩] ⟨0, "a", true⟩
    PeerMessage.answer_checked
    ⟨none, [], false, 0, 0, [], false, 0, 0⟩
    ⟨none, [], false, 0, 0, [], false, 0, 0⟩ (by decide) rfl
  rw [hmain.1]
  decide

lemma correctIndices_eq_filter_map (q : Question) :
    correctIndices q =
      (q.answers.enum.filter (fun p => p.2.correct)).map
        (fun p => (p.1 : Int)) := by
  unfold correctIndices
  generalize q.answers.enum = l
  induction l with
  | nil => rfl
  | cons p ps ih =>
    by_cases hc : p.2.correct
    · have hne : ((p.1 : Int) != -1) = true := by
        rw [bne_iff_ne]
        omega
      simp only [List.map_cons, List.filter_cons, hc, if_true, hne, ih]
    · have hcf : p.2.correct = false := by
        simpa using hc
      simp only [List.map_cons, List.filter_cons, hcf, Bool.false_eq_true,
        if_false, ih]
      simp

lemma correctIndices_nodup (q : Question) : (correctIndices q).Nodup := by
  rw [correctIndices_eq_filter_map]
  have h1 : ((q.answers.enum.filter (fun p => p.2.correct)).map Prod.fst).Nodup := by
    have h2 := List.nodup_enum_map_fst q.answers
    exact h2.sublist ((List.filter_sublist _).map Prod.fst)
  have h3 : (q.answers.enum.filter (fun p => p.2.correct)).map
        (fun p => (p.1 : Int)) =
      ((q.answers.enum.filter (fun p => p.2.correct)).map Prod.fst).map
        (fun n : Nat => (n : Int)) := by
    rw [List.map_map]
    rfl
  rw [h3]
  exact h1.map (fun a b hab => by exact_mod_cast hab)

/-- The boolean correctness test of `checkAnswer` (length equality plus
inclusion of every correct index) coincides with exact set equality of
the selected and the correct index sets, given a duplicate-free selected
list. -/
lemma isCorrectTest_iff_toFinset_eq (q : Question) (sel : List Int)
    (hnd : sel.Nodup) :
    ((correctIndices q).length == sel.length &&
        (correctIndices q).all (fun c => sel.contains c)) = true ↔
      sel.toFinset = (correctIndices q).toFinset := by
  have hci := correctIndices_nodup q
  constructor
  · intro hb
    rw [Bool.and_eq_true] at hb
    obtain ⟨hlen, hall⟩ := hb
    have hlen2 : (correctIndices q).length = sel.length := by
      exact_mod_cast beq_iff_eq.mp hlen
    have hsub : (correctIndices q).toFinset ⊆ sel.toFinset := by
      intro x hx
      rw [List.mem_toFinset] at hx ⊢
      have hx2 : (sel.contains x) = true := List.all_eq_true.mp hall x hx
      simpa using hx2
    have hcard1 : (correctIndices q).toFinset.card = (correctIndices q).length :=
      List.toFinset_card_of_nodup hci
    have hcard2 : sel.toFinset.card ≤ sel.length := List.toFinset_card_le sel
    exact (Finset.eq_of_subset_of_card_le hsub (by omega)).symm
  · intro hset
    rw [Bool.and_eq_true]
    have hcard1 : (correctIndices q).toFinset.card = (correctIndices q).length :=
      List.toFinset_card_of_nodup hci
    have hcard2 : sel.toFinset.card = sel.length :=
      List.toFinset_card_of_nodup hnd
    constructor
    · have hl : (correctIndices q).length = sel.length := by
        rw [← hcard1, ← hcard2, hset]
      exact beq_iff_eq.mpr hl
    · rw [List.all_eq_true]
      intro x hx
      have hx2 : x ∈ sel := by
        rw [← List.mem_toFinset, hset, List.mem_toFinset]
        exact hx
      simpa using hx2

/-- C1 counterexample: with a single correct answer at index 0 and the
duplicated selection `[0, 0]`, the set of selected indices equals the set
of correct indices, yet `checkAnswer` marks the question wrong (the code
compares list lengths, not sets), so the claim as stated fails. -/
theorem checkAnswer_set_equality_fails_on_duplicates :
    ([0, 0] : List Int).toFinset =
      (correctIndices ⟨1, "q", false, [⟨"a", true⟩]⟩).toFinset ∧
    (checkAnswer ⟨true, 1, 1⟩
        ⟨some ⟨1, "q", false, [⟨"a", true⟩]⟩, [0, 0], false, 0, 0, [⟨1, 1⟩],
          false, 0, 0⟩).wrongAnswersCount = 1 ∧
    (checkAnswer ⟨true, 1, 1⟩
        ⟨some ⟨1, "q", false, [⟨"a", true⟩]⟩, [0, 0], false, 0, 0, [⟨1, 1⟩],
          false, 0, 0⟩).correctAnswersCount = 0 := by
  refine ⟨by decide, by decide, by decide⟩

/-- C1 (amended with a duplicate-free selected list): on an unchecked
current question, `checkAnswer` marks the question correct iff the set of
selected indices equals the set of correct indices; on correct it
increments the correct counter and decrements the question's
reoccurrence entries by one floored at zero; on incorrect it increments
the wrong counter and adds the configured penalty to the question's
reoccurrence entries; entries of other questions are unchanged. -/
theorem checkAnswer_exact_match_rule (settings : UserSettings)
    (s : SessionState) (q : Question)
    (hq : s.currentQuestion = some q) (hunchecked : s.questionChecked = false)
    (hnd : s.selectedAnswers.Nodup) :
    (s.selectedAnswers.toFinset = (correctIndices q).toFinset →
      (checkAnswer settings s).correctAnswersCount = s.correctAnswersCount + 1 ∧
      (checkAnswer settings s).wrongAnswersCount = s.wrongAnswersCount ∧
      (checkAnswer settings s).reoccurrences.length = s.reoccurrences.length ∧
      ∀ i (hi : i < s.reoccurrences.length)
          (hi2 : i < (checkAnswer settings s).reoccurrences.length),
        ((s.reoccurrences.get ⟨i, hi⟩).id = q.id →
          (checkAnswer settings s).reoccurrences.get ⟨i, hi2⟩ =
            { s.reoccurrences.get ⟨i, hi⟩ with
              reoccurrences :=
                max ((s.reoccurrences.get ⟨i, hi⟩).reoccurrences - 1) 0 }) ∧
        ((s.reoccurrences.get ⟨i, hi⟩).id ≠ q.id →
          (checkAnswer settings s).reoccurrences.get ⟨i, hi2⟩ =
            s.reoccurrences.get ⟨i, hi⟩)) ∧
    (s.selectedAnswers.toFinset ≠ (correctIndices q).toFinset →
      (checkAnswer settings s).wrongAnswersCount = s.wrongAnswersCount + 1 ∧
      (checkAnswer settings s).correctAnswersCount = s.correctAnswersCount ∧
      (checkAnswer settings s).reoccurrences.length = s.reoccurrences.length ∧
      ∀ i (hi : i < s.reoccurrences.length)
          (hi2 : i < (checkAnswer settings s).reoccurrences.length),
        ((s.reoccurrences.get ⟨i, hi⟩).id = q.id →
          (checkAnswer settings s).reoccurrences.get ⟨i, hi2⟩ =
            { s.reoccurrences.get ⟨i, hi⟩ with
              reoccurrences :=
                (s.reoccurrences.get ⟨i, hi⟩).reoccurrences +
                  settings.wrong_answer_reoccurrences }) ∧
        ((s.reoccurrences.get ⟨i, hi⟩).id ≠ q.id →
          (checkAnswer settings s).reoccurrences.get ⟨i, hi2⟩ =
            s.reoccurrences.get ⟨i, hi⟩)) := by
  constructor
  · intro hset
    have hb : ((correctIndices q).length == s.selectedAnswers.length &&
        (correctIndices q).all (fun c => s.selectedAnswers.contains c)) = true :=
      (isCorrectTest_iff_toFinset_eq q s.selectedAnswers hnd).mpr hset
    have hca : checkAnswer settings s =
        { s with
          correctAnswersCount := s.correctAnswersCount + 1,
          reoccurrences := s.reoccurrences.map (fun r =>
            if r.id == q.id then
              { r with reoccurrences := max (r.reoccurrences - 1) 0 }
            else r),
          questionChecked := true } := by
      rw [checkAnswer, hunchecked, hq]
      simp only [Bool.false_eq_true, if_false, hb, if_true]
    rw [hca]
    refine ⟨rfl, rfl, by simp, ?_⟩
    intro i hi hi2
    constructor
    · intro hid
      simp only [List.get_eq_getElem, List.getElem_map]
      rw [show ((s.reoccurrences[i].id == q.id) = true) from beq_iff_eq.mpr hid,
        if_pos rfl]
    · intro hid
      simp only [List.get_eq_getElem, List.getElem_map]
      have hfalse : (s.reoccurrences[i].id == q.id) = false :=
        beq_eq_false_iff_ne.mpr hid
      simp [hfalse]
  · intro hset
    have hb : ((correctIndices q).length == s.selectedAnswers.length &&
        (correctIndices q).all (fun c => s.selectedAnswers.contains c)) = false := by
      rcases Bool.eq_false_or_eq_true ((correctIndices q).length ==
          s.selectedAnswers.length &&
          (correctIndices q).all (fun c => s.selectedAnswers.contains c)) with
        ht | hf
      · exact absurd ((isCorrectTest_iff_toFinset_eq q s.selectedAnswers hnd).mp ht)
          hset
      · exact hf
    have hca : checkAnswer settings s =
        { s with
          wrongAnswersCount := s.wrongAnswersCount + 1,
          reoccurrences := s.reoccurrences.map (fun r =>
            if r.id == q.id then
              { r with reoccurrences :=
                  r.reoccurrences + settings.wrong_answer_reoccurrences }
            else r),
          questionChecked := true } := by
      rw [checkAnswer, hunchecked, hq]
      simp only [Bool.false_eq_true, if_false, hb]
    rw [hca]
    refine ⟨rfl, rfl, by simp, ?_⟩
    intro i hi hi2
    constructor
    · intro hid
      simp only [List.get_eq_getElem, List.getElem_map]
      rw [show ((s.reoccurrences[i].id == q.id) = true) from beq_iff_eq.mpr hid,
        if_pos rfl]
    · intro hid
      simp only [List.get_eq_getElem, List.getElem_map]
      have hfalse : (s.reoccurrences[i].id == q.id) = false :=
        beq_eq_false_iff_ne.mpr hid
      simp [hfalse]

theorem checkAnswer_exact_match_rule_witness :
    (checkAnswer ⟨true, 1, 2⟩
        ⟨some ⟨5, "q", true, [⟨"a", true⟩, ⟨"b", false⟩]⟩, [0], false, 4, 3,
          [⟨5, 2⟩, ⟨6, 1⟩], false, 0, 0⟩).correctAnswersCount = 5 ∧
    (checkAnswer ⟨true, 1, 2⟩
        ⟨some ⟨5, "q", true, [⟨"a", true⟩, ⟨"b", false⟩]⟩, [0], false, 4, 3,
          [⟨5, 2⟩, ⟨6, 1⟩], false, 0, 0⟩).wrongAnswersCount = 3 := by
  have hmain := checkAnswer_exact_match_rule ⟨true, 1, 2⟩
    ⟨some ⟨5, "q", true, [⟨"a", true⟩, ⟨"b", false⟩]⟩, [0], false, 4, 3,
      [⟨5, 2⟩, ⟨6, 1⟩], false, 0, 0⟩
    ⟨5, "q", true, [⟨"a", true⟩, ⟨"b", false⟩]⟩ rfl rfl (by decide)
  have hres := hmain.1 (by decide)
  exact ⟨hres.1, hres.2.1⟩

/-- Invariant of one connection's probe timeline after the initial ping:
either the timeout is still armed and nothing was removed, or the timeout
fired, the connection is closed, and it was removed from the active set
exactly once. -/
def probeInvariant (c : DataConnection) (conns : List DataConnection)
    (s : ProbeState) : Prop :=
  (s.conn = c ∧ s.timerArmed = true ∧ s.removedCount = 0 ∧
    s.activeConns = conns) ∨
  (s.conn = { c with isOpen := false } ∧ s.timerArmed = false ∧
    s.removedCount = 1 ∧ s.activeConns = removeFromActiveSet conns c)

lemma probeStep_inv (c : DataConnection) (conns : List DataConnection)
    (hopen : c.isOpen = true) (s : ProbeState) (e : PingEvent)
    (he : e ≠ PingEvent.pongReceived) (h : probeInvariant c conns s) :
    probeInvariant c conns (probeStep s e) := by
  cases e with
  | pingTick =>
    rcases h with ⟨h1, h2, h3, h4⟩ | ⟨h1, h2, h3, h4⟩
    · refine Or.inl ⟨?_, ?_, ?_, ?_⟩ <;> simp [probeStep, h1, hopen, h2, h3, h4]
    · refine Or.inr ⟨?_, ?_, ?_, ?_⟩ <;> simp [probeStep, h1, h2, h3, h4]
  | pongReceived => exact absurd rfl he
  | timeoutFired =>
    rcases h with ⟨h1, h2, h3, h4⟩ | ⟨h1, h2, h3, h4⟩
    · refine Or.inr ⟨?_, ?_, ?_, ?_⟩ <;> simp [probeStep, h1, h2, h3, h4]
    · refine Or.inr ⟨?_, ?_, ?_, ?_⟩ <;> simp [probeStep, h1, h2, h3, h4]

lemma probeRun_inv (c : DataConnection) (conns : List DataConnection)
    (hopen : c.isOpen = true) :
    ∀ (mid : List PingEvent) (s : ProbeState),
      PingEvent.pongReceived ∉ mid → probeInvariant c conns s →
      probeInvariant c conns (probeRun s mid) := by
  intro mid
  induction mid with
  | nil => intro s _ h; exact h
  | cons e es ih =>
    intro s hno h
    have he : e ≠ PingEvent.pongReceived := fun hcontra =>
      hno (hcontra ▸ List.mem_cons_self _ _)
    have hno2 : PingEvent.pongReceived ∉ es := fun hmem =>
      hno (List.mem_cons_of_mem _ hmem)
    exact ih _ hno2 (probeStep_inv c conns hopen s e he h)

lemma removeFromActiveSet_no_peer (conns : List DataConnection)
    (c : DataConnection) :
    ∀ c2 ∈ removeFromActiveSet conns c, c2.peer ≠ c.peer := by
  intro c2 h
  have hf : (c2.isOpen && c2.peer != c.peer) = true := (List.mem_filter.mp h).2
  rw [Bool.and_eq_true] at hf
  exact bne_iff_ne.mp hf.2

/-- C8: on an open connection, after `pingPeers` sends a ping and arms
the timeout, any timeline that contains no pong before the timeout
elapses ends with the connection force-closed and removed from the
active connection set exactly once — the removal count is one, never
zero and never two, and no connection with that peer id remains. -/
theorem ping_timeout_removes_exactly_once (c : DataConnection)
    (conns : List DataConnection) (mid : List PingEvent)
    (hopen : c.isOpen = true)
    (hnopong : PingEvent.pongReceived ∉ mid) :
    (probeRun (probeStep ⟨c, false, 0, conns⟩ PingEvent.pingTick)
        (mid ++ [PingEvent.timeoutFired])).removedCount = 1 ∧
    (probeRun (probeStep ⟨c, false, 0, conns⟩ PingEvent.pingTick)
        (mid ++ [PingEvent.timeoutFired])).conn.isOpen = false ∧
    ∀ c2 ∈ (probeRun (probeStep ⟨c, false, 0, conns⟩ PingEvent.pingTick)
        (mid ++ [PingEvent.timeoutFired])).activeConns, c2.peer ≠ c.peer := by
  have h0 : probeInvariant c conns
      (probeStep ⟨c, false, 0, conns⟩ PingEvent.pingTick) := by
    refine Or.inl ⟨?_, ?_, ?_, ?_⟩ <;> simp [probeStep, hopen]
  have hmid := probeRun_inv c conns hopen mid _ hnopong h0
  have hsplit : probeRun (probeStep ⟨c, false, 0, conns⟩ PingEvent.pingTick)
      (mid ++ [PingEvent.timeoutFired]) =
      probeStep (probeRun (probeStep ⟨c, false, 0, conns⟩ PingEvent.pingTick)
        mid) PingEvent.timeoutFired := by
    simp [probeRun, List.foldl_append]
  rw [hsplit]
  set sm := probeRun (probeStep ⟨c, false, 0, conns⟩ PingEvent.pingTick) mid
    with hsm
  rcases hmid with ⟨h1, h2, h3, h4⟩ | ⟨h1, h2, h3, h4⟩
  · refine ⟨?_, ?_, ?_⟩
    · simp [probeStep, h2, h3]
    · simp [probeStep, h2, h1]
    · intro c2 hc2
      simp only [probeStep, h2, if_true, h4, h1] at hc2
      exact removeFromActiveSet_no_peer conns c c2 hc2
  · refine ⟨?_, ?_, ?_⟩
    · simp [probeStep, h2, h3]
    · simp [probeStep, h2, h1]
    · intro c2 hc2
      simp only [probeStep, h2, Bool.false_eq_true, if_false, h4] at hc2
      exact removeFromActiveSet_no_peer conns c c2 hc2

theorem ping_timeout_removes_exactly_once_witness :
    (probeRun (probeStep ⟨⟨0, "x", true⟩, false, 0, [⟨0, "x", true⟩]⟩
        PingEvent.pingTick) [PingEvent.timeoutFired]).removedCount = 1 ∧
    (probeRun (probeStep ⟨⟨0, "x", true⟩, false, 0, [⟨0, "x", true⟩]⟩
        PingEvent.pingTick) [PingEvent.timeoutFired]).conn.isOpen = false ∧
    ∀ c2 ∈ (probeRun (probeStep ⟨⟨0, "x", true⟩, false, 0, [⟨0, "x", true⟩]⟩
        PingEvent.pingTick) [PingEvent.timeoutFired]).activeConns,
      c2.peer ≠ (⟨0, "x", true⟩ : DataConnection).peer := by
  have hmain := ping_timeout_removes_exactly_once ⟨0, "x", true⟩
    [⟨0, "x", true⟩] [] rfl (by decide)
  simpa using hmain

/-- C9 counterexample: with a configured wrong-answer penalty of `-1`
(the settings fetched from the server are not validated by this code), a
wrong answer on a question whose count is zero drives that count to
`-1`, so starting from an all-non-negative reoccurrence list the
invariant is violated. -/
theorem reoccurrence_nonneg_fails_on_negative_penalty :
    (∀ r ∈ ([⟨1, 0⟩] : List Reoccurrence), 0 ≤ r.reoccurrences) ∧
    ∃ r ∈ (checkAnswer ⟨true, 1, -1⟩
        ⟨some ⟨1, "q", false, [⟨"a", true⟩]⟩, [], false, 0, 0, [⟨1, 0⟩],
          false, 0, 0⟩).reoccurrences,
      r.reoccurrences < 0 := by
  refine ⟨by decide, by decide⟩

lemma pickRandomQuestion_keeps_reoccurrences (quizData : Quiz)
    (recurrencesData : List Reoccurrence) (rand : Nat)
    (shuffle : List Answer → List Answer) (s : SessionState) :
    (pickRandomQuestion quizData recurrencesData rand shuffle s).reoccurrences =
      s.reoccurrences := by
  simp only [pickRandomQuestion]
  split
  · rfl
  · split <;> rfl

/-- C9 (amended with non-negative configured settings): if the configured
wrong-answer penalty and initial reoccurrence count are non-negative,
then from a session state whose reoccurrence counts are all
non-negative, checking an answer (correctly or incorrectly), creating
fresh reoccurrences and resetting progress each leave every reoccurrence
count non-negative. -/
theorem reoccurrences_stay_nonneg (settings : UserSettings) (quiz : Quiz)
    (rand : Nat) (shuffle : List Answer → List Answer) (s : SessionState)
    (hpen : 0 ≤ settings.wrong_answer_reoccurrences)
    (hinit : 0 ≤ settings.initial_reoccurrences)
    (hs : ∀ r ∈ s.reoccurrences, 0 ≤ r.reoccurrences) :
    (∀ r ∈ (checkAnswer settings s).reoccurrences, 0 ≤ r.reoccurrences) ∧
    (∀ r ∈ freshReoccurrences quiz settings.initial_reoccurrences,
      0 ≤ r.reoccurrences) ∧
    (∀ r ∈ (resetProgress quiz settings rand shuffle s).reoccurrences,
      0 ≤ r.reoccurrences) := by
  have hfresh : ∀ r ∈ freshReoccurrences quiz settings.initial_reoccurrences,
      0 ≤ r.reoccurrences := by
    intro r hr
    rw [freshReoccurrences, List.mem_map] at hr
    obtain ⟨qq, _, rfl⟩ := hr
    exact hinit
  refine ⟨?_, hfresh, ?_⟩
  · intro r hr
    simp only [checkAnswer] at hr
    split at hr
    · exact hs r hr
    · split at hr
      · exact hs r hr
      · split at hr
        · simp only [List.mem_map] at hr
          obtain ⟨r0, hr0, rfl⟩ := hr
          split
          · exact le_max_right _ _
          · exact hs r0 hr0
        · simp only [List.mem_map] at hr
          obtain ⟨r0, hr0, rfl⟩ := hr
          split
          · exact add_nonneg (hs r0 hr0) hpen
          · exact hs r0 hr0
  · intro r hr
    rw [resetProgress, pickRandomQuestion_keeps_reoccurrences] at hr
    exact hfresh r hr

theorem reoccurrences_stay_nonneg_witness :
    (0 : Int) ≤ ((checkAnswer ⟨true, 1, 2⟩
        ⟨some ⟨1, "q", false, [⟨"a", true⟩]⟩, [], false, 0, 0, [⟨1, 0⟩],
          false, 0, 0⟩).reoccurrences.getD 0 ⟨0, -1⟩).reoccurrences := by
  have h := (reoccurrences_stay_nonneg ⟨true, 1, 2⟩ ⟨1, "t", 1, []⟩ 0 id
    ⟨some ⟨1, "q", false, [⟨"a", true⟩]⟩, [], false, 0, 0, [⟨1, 0⟩],
      false, 0, 0⟩ (by decide) (by decide) (by decide)).1
  exact h _ (by decide)

/-- C10: `saveProgress` posts to the server exactly when there is a
current question, the quiz is not finished, sync is enabled and the
device is the continuity host or has no open peer connections; a
connected non-host client only writes local storage; and with no current
question or a finished quiz it performs no write at all. -/
theorem saveProgress_server_policy (settings : UserSettings) (isHost : Bool)
    (peerConnections : List DataConnection) (s : SessionState) :
    ((saveProgress settings isHost peerConnections s).serverPost ≠ none ↔
      s.currentQuestion ≠ none ∧ s.isQuizFinished = false ∧
        settings.sync_progress = true ∧
        (isHost = true ∨ peerConnections.length = 0)) ∧
    (isHost = false → peerConnections ≠ [] →
      (saveProgress settings isHost peerConnections s).serverPost = none) ∧
    (s.currentQuestion ≠ none → s.isQuizFinished = false →
      (saveProgress settings isHost peerConnections s).localWrite ≠ none) ∧
    (s.currentQuestion = none ∨ s.isQuizFinished = true →
      saveProgress settings isHost peerConnections s =
        { localWrite := none, serverPost := none }) := by
  cases hq : s.currentQuestion with
  | none =>
    refine ⟨?_, ?_, ?_, ?_⟩ <;> simp [saveProgress, hq]
  | some q =>
    by_cases hf : s.isQuizFinished
    · refine ⟨?_, ?_, ?_, ?_⟩ <;> simp [saveProgress, hq, hf]
    · have hf2 : s.isQuizFinished = false := by simpa using hf
      refine ⟨?_, ?_, ?_, ?_⟩
      · constructor
        · intro hpost
          by_cases hcnd : (settings.sync_progress &&
              (isHost || peerConnections.length == 0)) = true
          · rw [Bool.and_eq_true, Bool.or_eq_true] at hcnd
            refine ⟨by simp [hq], hf2, hcnd.1, ?_⟩
            rcases hcnd.2 with h | h
            · exact Or.inl h
            · exact Or.inr (by exact_mod_cast beq_iff_eq.mp h)
          · have hnone : (saveProgress settings isHost peerConnections s).serverPost
                = none := by
              simp [saveProgress, hq, hf2, hcnd]
            exact absurd hnone hpost
        · rintro ⟨-, -, hsync, hor⟩
          have hcnd : (settings.sync_progress &&
              (isHost || peerConnections.length == 0)) = true := by
            rw [Bool.and_eq_true, Bool.or_eq_true]
            refine ⟨hsync, ?_⟩
            rcases hor with h | h
            · exact Or.inl h
            · exact Or.inr (beq_iff_eq.mpr h)
          simp [saveProgress, hq, hf2, hcnd]
      · intro hhost hne
        have hlen : (peerConnections.length == 0) = false :=
          beq_eq_false_iff_ne.mpr (fun hcontra =>
            hne (List.length_eq_zero.mp hcontra))
        simp [saveProgress, hq, hf2, hhost, hlen]
      · intro _ _
        simp [saveProgress, hq, hf2]
      · intro h
        rcases h with h | h
        · simp at h
        · rw [hf2] at h
          simp at h

theorem saveProgress_server_policy_witness :
    (saveProgress ⟨true, 1, 1⟩ false [⟨0, "host", true⟩]
        ⟨some ⟨1, "q", false, [⟨"a", true⟩]⟩, [], false, 0, 0, [⟨1, 1⟩],
          false, 0, 0⟩).serverPost = none ∧
    (saveProgress ⟨true, 1, 1⟩ false [⟨0, "host", true⟩]
        ⟨some ⟨1, "q", false, [⟨"a", true⟩]⟩, [], false, 0, 0, [⟨1, 1⟩],
          false, 0, 0⟩).localWrite ≠ none := by
  have hmain := saveProgress_server_policy ⟨true, 1, 1⟩ false [⟨0, "host", true⟩]
    ⟨some ⟨1, "q", false, [⟨"a", true⟩]⟩, [], false, 0, 0, [⟨1, 1⟩],
      false, 0, 0⟩
  exact ⟨hmain.2.1 rfl (by decide), hmain.2.2.1 (by decide) rfl⟩

end Testownik
